import Mathlib

/-!
# Verification of the `mapper` package (go-mapper)

A shallow embedding of `mapper.go`: a `Mapper` maps opaque pointer-sized
`Key`s to Go values.  Machine words (`uintptr`) are modelled as `Nat`,
with arithmetic reduced mod `2^w` exactly where the Go code can overflow
(the atomic counter addition in `MapValue`); bitwise `&` and `|` are
modelled with `Nat.land` / `Nat.lor` (`&&&` / `|||`).  The Go map field
`m map[Key]interface{}` is modelled as `Option (List (Key × α))`: Go's
`nil` map is `none`, and a non-nil map is an association list whose
insert replaces an existing binding.  A Go `panic` is modelled as an
`Except.error` carrying the error kind; since `Except.error` carries no
mapper state, an erroring operation leaves the caller's mapper exactly as
it was, matching a panic raised before any mutation.
-/

namespace GoMapper

/-- The error kinds the package can panic with:
`misalignedPtr` from `KeyFromPtr` (`ptr is unaligned`),
`keyNotMapped` from `Get` (`key not mapped`), and
`keySpaceExhausted` from `MapValue` (`key space exhausted`). -/
inductive MapperError : Type where
  | misalignedPtr (ptr : Nat)
  | keyNotMapped (handle : Nat)
  | keySpaceExhausted
deriving DecidableEq, Repr

/-- `Key` is an opaque token used to map onto Go values (`type Key struct { v uintptr }`). -/
structure Key : Type where
  v : Nat
deriving DecidableEq, Repr

/-- `const countingPointerBit = 1`: the LSB marks a synthetic "counting-pointer" key. -/
def countingPointerBit : Nat := 1

/-- `func (k Key) Handle() uintptr { return k.v }` -/
def Key.Handle (k : Key) : Nat := k.v

/-- Go association-map insert: replace the binding of `k` if present, else append.
Models `m[key] = goValue` on a non-nil Go map. -/
def mapInsert {α : Type} (l : List (Key × α)) (k : Key) (v : α) : List (Key × α) :=
  match l with
  | [] => [(k, v)]
  | (k', v') :: rest => if k' = k then (k, v) :: rest else (k', v') :: mapInsert rest k v

/-- Go map lookup: models `goValue, ok := mapper.m[key]`. -/
def mapLookup {α : Type} (l : List (Key × α)) (k : Key) : Option α :=
  match l with
  | [] => none
  | (k', v') :: rest => if k' = k then some v' else mapLookup rest k

/-- Go map delete: models `delete(mapper.m, key)` on a non-nil Go map. -/
def mapErase {α : Type} (l : List (Key × α)) (k : Key) : List (Key × α) :=
  match l with
  | [] => []
  | (k', v') :: rest => if k' = k then mapErase rest k else (k', v') :: mapErase rest k

/-- `type Mapper struct { m map[Key]interface{}; atomicKey uintptr }`.
`m = none` models Go's nil map (the zero value, never yet allocated or
reset by `Clear`); `atomicKey` is the synthetic-key counter. -/
structure Mapper (α : Type) : Type where
  m : Option (List (Key × α))
  atomicKey : Nat
deriving DecidableEq, Repr

/-- `var G Mapper`: the zero-valued Mapper (nil map, counter 0).  Also the
state produced by `Clear`. -/
def G {α : Type} : Mapper α := { m := none, atomicKey := 0 }

/-- The entry table viewed as an association list.  A nil Go map (`none`)
has no entries; reading from a nil map in Go behaves exactly like reading
from an empty map. -/
def Mapper.entries {α : Type} (mapper : Mapper α) : List (Key × α) :=
  match mapper.m with
  | none => []
  | some l => l

/-- `func KeyFromPtr(ptr unsafe.Pointer) Key`: panics when
`uintptr(ptr) & countingPointerBit != 0`, else returns `Key{uintptr(ptr)}`. -/
def KeyFromPtr (ptr : Nat) : Except MapperError Key :=
  if ptr &&& countingPointerBit ≠ 0 then .error (.misalignedPtr ptr)
  else .ok ⟨ptr⟩

/-- `func KeyFromHandle(handle uintptr) Key { return Key{handle} }` -/
def KeyFromHandle (handle : Nat) : Key := ⟨handle⟩

/-- `func (mapper *Mapper) doMap(key Key, goValue interface{})`: lazily
allocates the map when nil, then stores the pair. -/
def Mapper.doMap {α : Type} (mapper : Mapper α) (key : Key) (goValue : α) : Mapper α :=
  { mapper with m := some (mapInsert mapper.entries key goValue) }

/-- `func (mapper *Mapper) MapPair(key Key, goValue interface{})` -/
def Mapper.MapPair {α : Type} (mapper : Mapper α) (key : Key) (goValue : α) : Mapper α :=
  mapper.doMap key goValue

/-- `func (mapper *Mapper) MapPtrPair(ptr unsafe.Pointer, goValue interface{}) Key`:
`KeyFromPtr` then `MapPair`, returning the key. -/
def Mapper.MapPtrPair {α : Type} (mapper : Mapper α) (ptr : Nat) (goValue : α) :
    Except MapperError (Key × Mapper α) :=
  match KeyFromPtr ptr with
  | .error e => .error e
  | .ok key => .ok (key, mapper.MapPair key goValue)

/-- `func (mapper *Mapper) MapValue(goValue interface{}) Key` on a `w`-bit
word: `key := Key{atomic.AddUintptr(&mapper.atomicKey, 2) | countingPointerBit}`
(the add wraps mod `2^w`), then `if key.v == 0 { panic("key space exhausted") }`,
then `doMap`. -/
def Mapper.MapValue {α : Type} (w : Nat) (mapper : Mapper α) (goValue : α) :
    Except MapperError (Key × Mapper α) :=
  let ctr := (mapper.atomicKey + 2) % 2 ^ w
  let key : Key := ⟨ctr ||| countingPointerBit⟩
  let mapper' := { mapper with atomicKey := ctr }
  if key.v = 0 then .error .keySpaceExhausted
  else .ok (key, mapper'.doMap key goValue)

/-- `func (mapper *Mapper) Get(key Key) (goValue interface{})`: panics with
`key not mapped` when the key is absent (a nil map yields not-ok in Go). -/
def Mapper.Get {α : Type} (mapper : Mapper α) (key : Key) : Except MapperError α :=
  match mapLookup mapper.entries key with
  | some goValue => .ok goValue
  | none => .error (.keyNotMapped key.v)

/-- `func (mapper *Mapper) GetPtr(ptr unsafe.Pointer)`: no alignment check
(`Key{uintptr(ptr)}` directly), then `Get`. -/
def Mapper.GetPtr {α : Type} (mapper : Mapper α) (ptr : Nat) : Except MapperError α :=
  mapper.Get ⟨ptr⟩

/-- `func (mapper *Mapper) GetHandle(handle uintptr)` -/
def Mapper.GetHandle {α : Type} (mapper : Mapper α) (handle : Nat) : Except MapperError α :=
  mapper.Get (KeyFromHandle handle)

/-- `func (mapper *Mapper) Delete(key Key)`: `delete(mapper.m, key)` — a
no-op on a nil map, never fails. -/
def Mapper.Delete {α : Type} (mapper : Mapper α) (key : Key) : Mapper α :=
  match mapper.m with
  | none => mapper
  | some l => { mapper with m := some (mapErase l key) }

/-- `func (mapper *Mapper) DeletePtr(ptr unsafe.Pointer)`: `KeyFromPtr`
(which panics on an unaligned pointer) then `Delete`. -/
def Mapper.DeletePtr {α : Type} (mapper : Mapper α) (ptr : Nat) :
    Except MapperError (Mapper α) :=
  match KeyFromPtr ptr with
  | .error e => .error e
  | .ok key => .ok (mapper.Delete key)

/-- `func (mapper *Mapper) DeleteHandle(handle uintptr)`: no alignment check
(`Key{handle}` directly), then `Delete`. -/
def Mapper.DeleteHandle {α : Type} (mapper : Mapper α) (handle : Nat) : Mapper α :=
  mapper.Delete ⟨handle⟩

/-- `func (mapper *Mapper) Clear()`: `mapper.m = nil; mapper.atomicKey = 0`. -/
def Mapper.Clear {α : Type} (mapper : Mapper α) : Mapper α :=
  { mapper with m := none, atomicKey := 0 }

/-- Run `n` successive `MapValue` calls (all with value `v`) on a `w`-bit
word, collecting the returned keys in order; stop at the first error. -/
def mapValueRun {α : Type} (w : Nat) (v : α) : Nat → Mapper α → List Key
  | 0, _ => []
  | n + 1, mapper =>
    match mapper.MapValue w v with
    | .ok (k, mapper') => k :: mapValueRun w v n mapper'
    | .error _ => []

/-! ## Basic lemmas about the association-list map operations -/

theorem mapLookup_mapInsert_self {α : Type} (l : List (Key × α)) (k : Key) (v : α) :
    mapLookup (mapInsert l k v) k = some v := by
  induction l with
  | nil => simp [mapInsert, mapLookup]
  | cons hd tl ih =>
    obtain ⟨k', v'⟩ := hd
    by_cases h : k' = k
    · simp [mapInsert, mapLookup, h]
    · simp [mapInsert, mapLookup, h, ih]

theorem mapLookup_mapInsert_ne {α : Type} (l : List (Key × α)) (k k' : Key) (v : α)
    (h : k' ≠ k) : mapLookup (mapInsert l k v) k' = mapLookup l k' := by
  induction l with
  | nil => simp [mapInsert, mapLookup, Ne.symm h]
  | cons hd tl ih =>
    obtain ⟨k₀, v₀⟩ := hd
    by_cases h₀ : k₀ = k
    · subst h₀
      simp [mapInsert, mapLookup, Ne.symm h]
    · by_cases h₁ : k₀ = k'
      · subst h₁
        simp [mapInsert, mapLookup, h₀, h]
      · simp [mapInsert, mapLookup, h₀, h₁, ih]

theorem mapLookup_mapErase_self {α : Type} (l : List (Key × α)) (k : Key) :
    mapLookup (mapErase l k) k = none := by
  induction l with
  | nil => simp [mapErase, mapLookup]
  | cons hd tl ih =>
    obtain ⟨k', v'⟩ := hd
    by_cases h : k' = k
    · simp [mapErase, h, ih]
    · simp [mapErase, mapLookup, h, ih]

theorem mapErase_of_lookup_none {α : Type} (l : List (Key × α)) (k : Key)
    (h : mapLookup l k = none) : mapErase l k = l := by
  induction l with
  | nil => simp [mapErase]
  | cons hd tl ih =>
    obtain ⟨k', v'⟩ := hd
    by_cases hk : k' = k
    · simp [mapLookup, hk] at h
    · simp only [mapLookup, if_neg hk] at h
      simp [mapErase, hk, ih h]

theorem entries_doMap {α : Type} (mapper : Mapper α) (k : Key) (v : α) :
    (mapper.doMap k v).entries = mapInsert mapper.entries k v := rfl

theorem entries_Delete {α : Type} (mapper : Mapper α) (k : Key) :
    (mapper.Delete k).entries = mapErase mapper.entries k := by
  cases hm : mapper.m with
  | none => simp [Mapper.Delete, Mapper.entries, hm, mapErase]
  | some l => simp [Mapper.Delete, Mapper.entries, hm]

theorem Get_eq_ok_iff {α : Type} (mapper : Mapper α) (k : Key) (v : α) :
    mapper.Get k = .ok v ↔ mapLookup mapper.entries k = some v := by
  unfold Mapper.Get
  cases mapLookup mapper.entries k <;> simp

theorem Get_eq_error_iff {α : Type} (mapper : Mapper α) (k : Key) :
    mapper.Get k = .error (.keyNotMapped k.v) ↔ mapLookup mapper.entries k = none := by
  unfold Mapper.Get
  cases mapLookup mapper.entries k <;> simp

/-! ## The claims -/

/-- C1: for every 2-byte-aligned address `a` (low bit zero) and every value
`v`, `MapPtrPair a v` succeeds, returns a `Key` whose handle bit pattern
equals `a` exactly, and a subsequent `Get` of that `Key` on the resulting
mapper returns `v` exactly. -/
theorem C1_mapPtrPair_get {α : Type} (mapper : Mapper α) (a : Nat) (v : α)
    (halign : a &&& 1 = 0) :
    ∃ (key : Key) (mapper' : Mapper α),
      mapper.MapPtrPair a v = .ok (key, mapper') ∧
      key.Handle = a ∧ mapper'.Get key = .ok v := by
  refine ⟨⟨a⟩, mapper.MapPair ⟨a⟩ v, ?_, rfl, ?_⟩
  · simp [Mapper.MapPtrPair, KeyFromPtr, countingPointerBit, halign]
  · rw [Get_eq_ok_iff]
    show mapLookup (mapper.doMap ⟨a⟩ v).entries ⟨a⟩ = some v
    rw [entries_doMap, mapLookup_mapInsert_self]

/-- Witness for C1 at the concrete aligned address `0x1000`. -/
theorem C1_witness :
    (4096 : Nat) &&& 1 = 0 ∧
    ∃ (key : Key) (mapper' : Mapper Nat),
      (G : Mapper Nat).MapPtrPair 4096 7 = .ok (key, mapper') ∧
      key.Handle = 4096 ∧ mapper'.Get key = .ok 7 :=
  ⟨by decide, C1_mapPtrPair_get G 4096 7 (by decide)⟩

/-- C2 (refuting the claimed panic): `MapValue` can NEVER fail with the
key-space-exhausted error, because the wrap-around check `if key.v == 0`
is tested after `| countingPointerBit` has set the low bit, so it is dead
code.  Concretely, on a 4-bit word, 9 successive `MapValue` calls from the
zero mapper drive the counter through its wrap to 0 — the 8th call (counter
`2^4 - 2 → 0`) silently returns key 1 and the 9th returns key 3 again —
with every call succeeding and no panic. -/
theorem C2_mapValue_never_exhausts :
    (∀ (α : Type) (w : Nat) (mapper : Mapper α) (v : α),
      ∃ (key : Key) (mapper' : Mapper α), mapper.MapValue w v = .ok (key, mapper')) ∧
    (mapValueRun 4 (0 : Nat) 9 G).map Key.v = [3, 5, 7, 9, 11, 13, 15, 1, 3] := by
  constructor
  · intro α w mapper v
    unfold Mapper.MapValue
    have hodd : ((mapper.atomicKey + 2) % 2 ^ w ||| countingPointerBit) % 2 = 1 := by
      simp [countingPointerBit]
    have hne : ((mapper.atomicKey + 2) % 2 ^ w ||| countingPointerBit) ≠ 0 := by
      intro h0
      rw [h0] at hodd
      simp at hodd
    simp only [hne, if_false, reduceIte]
    exact ⟨_, _, rfl⟩
  · decide

/-- C3 (refuting "never reused"): with no intervening `Clear`, the 1st and
the 9th `MapValue` calls on a 4-bit word return the SAME key 3 — a handed-out
synthetic counter value is reused once the counter wraps, because the
wrap-around panic is dead code. -/
theorem C3_mapValue_key_reused :
    (mapValueRun 4 (0 : Nat) 9 G).get? 0 = some ⟨3⟩ ∧
    (mapValueRun 4 (0 : Nat) 9 G).get? 8 = some ⟨3⟩ := by
  decide

/-- `MapValue` always takes the success branch (the `key.v == 0` test can
never be true once the low bit is OR-ed in), returning the key
`(atomicKey + 2) % 2^w ||| 1` and the updated mapper. -/
theorem MapValue_ok {α : Type} (w : Nat) (mapper : Mapper α) (v : α) :
    mapper.MapValue w v =
      .ok (⟨(mapper.atomicKey + 2) % 2 ^ w ||| 1⟩,
        ({ mapper with atomicKey := (mapper.atomicKey + 2) % 2 ^ w }).doMap
          ⟨(mapper.atomicKey + 2) % 2 ^ w ||| 1⟩ v) := by
  unfold Mapper.MapValue countingPointerBit
  have hodd : ((mapper.atomicKey + 2) % 2 ^ w ||| 1) % 2 = 1 := by simp
  have hne : ((mapper.atomicKey + 2) % 2 ^ w ||| 1) ≠ 0 := by
    intro h0
    rw [h0] at hodd
    simp at hodd
  simp [hne]

/-- A successful `MapPtrPair mapper a v = ok (k, mp')` forces `a` to be
aligned, `k` to be `⟨a⟩`, and `mp'` to be `mapper.MapPair ⟨a⟩ v`. -/
theorem MapPtrPair_ok_inv {α : Type} (mapper : Mapper α) (a : Nat) (v : α)
    (k : Key) (mp' : Mapper α) (h : mapper.MapPtrPair a v = .ok (k, mp')) :
    a &&& 1 = 0 ∧ k = ⟨a⟩ ∧ mp' = mapper.MapPair ⟨a⟩ v := by
  unfold Mapper.MapPtrPair KeyFromPtr countingPointerBit at h
  by_cases hal : a &&& 1 = 0
  · simp only [hal, ne_eq, not_true_eq_false, if_false, reduceIte,
      Except.ok.injEq, Prod.mk.injEq] at h
    exact ⟨hal, h.1.symm, h.2.symm⟩
  · rw [Nat.and_one_is_mod] at hal
    have ha2 : a % 2 = 1 := by omega
    simp [ha2] at h

/-- C4: every `Key` returned by `MapValue` has its low (discriminator) bit
set; every `Key` returned by a successful `MapPtrPair a v` has bit pattern
exactly `a`, whose low bit is 0; hence the synthetic and address-derived
handle spaces are disjoint. -/
theorem C4_handle_spaces_disjoint {α : Type} (w : Nat) (mp₁ mp₂ : Mapper α)
    (v₁ v₂ : α) (a : Nat) (k₁ k₂ : Key) (mp₁' mp₂' : Mapper α)
    (h₁ : mp₁.MapValue w v₁ = .ok (k₁, mp₁'))
    (h₂ : mp₂.MapPtrPair a v₂ = .ok (k₂, mp₂')) :
    k₁.v &&& 1 = 1 ∧ k₂.v = a ∧ a &&& 1 = 0 ∧ k₁ ≠ k₂ := by
  rw [MapValue_ok] at h₁
  simp only [Except.ok.injEq, Prod.mk.injEq] at h₁
  obtain ⟨hk₁, -⟩ := h₁
  obtain ⟨hal, hk₂, -⟩ := MapPtrPair_ok_inv mp₂ a v₂ k₂ mp₂' h₂
  have hk₁v : k₁.v = (mp₁.atomicKey + 2) % 2 ^ w ||| 1 := by rw [← hk₁]
  have hodd : k₁.v % 2 = 1 := by rw [hk₁v]; simp
  have hk₂v : k₂.v = a := by rw [hk₂]
  have haeven : a % 2 = 0 := by rw [Nat.and_one_is_mod] at hal; exact hal
  refine ⟨by rw [Nat.and_one_is_mod, hodd], hk₂v, hal, ?_⟩
  intro hcontra
  rw [hcontra, hk₂v] at hodd
  rw [haeven] at hodd
  exact absurd hodd (by decide)

/-- Witness for C4: on a fresh 64-bit mapper, the first synthetic key is 3
(odd) and the key mapped from address `0x1000` is `0x1000` (even). -/
theorem C4_witness :
    ∃ (k₁ k₂ : Key) (mp₁' mp₂' : Mapper Nat),
      (G : Mapper Nat).MapValue 64 5 = .ok (k₁, mp₁') ∧
      (G : Mapper Nat).MapPtrPair 4096 7 = .ok (k₂, mp₂') ∧
      k₁.v &&& 1 = 1 ∧ k₂.v = 4096 ∧ (4096 : Nat) &&& 1 = 0 ∧ k₁ ≠ k₂ := by
  have h₁ : (G : Mapper Nat).MapValue 64 5 = .ok (⟨3⟩, ⟨some [(⟨3⟩, 5)], 2⟩) := by
    rfl
  have h₂ : (G : Mapper Nat).MapPtrPair 4096 7 = .ok (⟨4096⟩, ⟨some [(⟨4096⟩, 7)], 0⟩) := by
    rfl
  exact ⟨⟨3⟩, ⟨4096⟩, _, _, h₁, h₂,
    C4_handle_spaces_disjoint 64 G G 5 7 4096 _ _ _ _ h₁ h₂⟩

/-- C5: `MapPtrPair` on an address whose low bit is set fails with the
misaligned-address error; since the panic fires before any mutation, the
mapper is unchanged, so whenever no entry exists for the would-be key, a
subsequent `Get` of it fails with the unknown-handle error. -/
theorem C5_misaligned_no_mutation {α : Type} (mapper : Mapper α) (a : Nat)
    (v : α) (hmis : a &&& 1 = 1) :
    mapper.MapPtrPair a v = .error (.misalignedPtr a) ∧
    (mapLookup mapper.entries ⟨a⟩ = none →
      mapper.Get ⟨a⟩ = .error (.keyNotMapped a)) := by
  constructor
  · unfold Mapper.MapPtrPair KeyFromPtr countingPointerBit
    simp [hmis]
  · intro habs
    exact (Get_eq_error_iff mapper ⟨a⟩).mpr habs

/-- Witness for C5 at the concrete misaligned address `1` on the zero
mapper. -/
theorem C5_witness :
    (1 : Nat) &&& 1 = 1 ∧
    mapLookup (G : Mapper Nat).entries ⟨1⟩ = none ∧
    (G : Mapper Nat).MapPtrPair 1 0 = .error (.misalignedPtr 1) ∧
    (G : Mapper Nat).Get ⟨1⟩ = .error (.keyNotMapped 1) := by
  refine ⟨by decide, rfl, ?_, ?_⟩
  · exact (C5_misaligned_no_mutation G 1 0 (by decide)).1
  · exact (C5_misaligned_no_mutation G 1 0 (by decide)).2 rfl

/-- C6: `Get h` returns the associated value exactly when an entry for `h`
is present, and fails with the unknown-handle error exactly when none
exists; `Delete h` followed by `Get h` fails with that error; and `Delete h`
on an absent `h` is a silent no-op leaving the whole mapper unchanged. -/
theorem C6_get_delete_semantics {α : Type} (mapper : Mapper α) (h : Key) (v : α) :
    (mapper.Get h = .ok v ↔ mapLookup mapper.entries h = some v) ∧
    (mapper.Get h = .error (.keyNotMapped h.v) ↔ mapLookup mapper.entries h = none) ∧
    (mapper.Delete h).Get h = .error (.keyNotMapped h.v) ∧
    (mapLookup mapper.entries h = none → mapper.Delete h = mapper) := by
  refine ⟨Get_eq_ok_iff mapper h v, Get_eq_error_iff mapper h, ?_, ?_⟩
  · rw [Get_eq_error_iff, entries_Delete, mapLookup_mapErase_self]
  · intro habs
    unfold Mapper.Delete
    cases hm : mapper.m with
    | none => rfl
    | some l =>
      have hl : mapLookup l h = none := by
        have he := habs
        unfold Mapper.entries at he
        rw [hm] at he
        exact he
      show { m := some (mapErase l h), atomicKey := mapper.atomicKey } = mapper
      rw [mapErase_of_lookup_none l h hl, ← hm]

/-- Witness for C6: deleting the never-mapped key 3 from the zero mapper is
a no-op, and getting it fails with the unknown-handle error. -/
theorem C6_witness :
    (G : Mapper Nat).Delete ⟨3⟩ = G ∧
    (G : Mapper Nat).Get ⟨3⟩ = .error (.keyNotMapped 3) :=
  ⟨(C6_get_delete_semantics (G : Mapper Nat) ⟨3⟩ 0).2.2.2 rfl,
    ((C6_get_delete_semantics (G : Mapper Nat) ⟨3⟩ 0).2.1).mpr rfl⟩

/-- C7: re-mapping an already-present key silently overwrites the prior
value (last-writer-wins): after `MapPair h v₁` then `MapPair h v₂`, `Get h`
returns `v₂`, and `Get` of any other key is unaffected. -/
theorem C7_remap_overwrites {α : Type} (mapper : Mapper α) (h : Key) (v₁ v₂ : α) :
    ((mapper.MapPair h v₁).MapPair h v₂).Get h = .ok v₂ ∧
    (∀ k : Key, k ≠ h → ((mapper.MapPair h v₁).MapPair h v₂).Get k = mapper.Get k) := by
  constructor
  · rw [Get_eq_ok_iff]
    show mapLookup ((mapper.doMap h v₁).doMap h v₂).entries h = some v₂
    rw [entries_doMap, mapLookup_mapInsert_self]
  · intro k hk
    have he : mapLookup ((mapper.MapPair h v₁).MapPair h v₂).entries k
        = mapLookup mapper.entries k := by
      show mapLookup ((mapper.doMap h v₁).doMap h v₂).entries k = _
      rw [entries_doMap, mapLookup_mapInsert_ne _ _ _ _ hk, entries_doMap,
        mapLookup_mapInsert_ne _ _ _ _ hk]
    unfold Mapper.Get
    rw [he]

/-- Witness for C7 at key 2 with values 1 then 2, checking key 4 is
unaffected. -/
theorem C7_witness :
    (((G : Mapper Nat).MapPair ⟨2⟩ 1).MapPair ⟨2⟩ 2).Get ⟨2⟩ = .ok 2 ∧
    (((G : Mapper Nat).MapPair ⟨2⟩ 1).MapPair ⟨2⟩ 2).Get ⟨4⟩ = (G : Mapper Nat).Get ⟨4⟩ :=
  ⟨(C7_remap_overwrites G ⟨2⟩ 1 2).1,
    (C7_remap_overwrites G ⟨2⟩ 1 2).2 ⟨4⟩ (by decide)⟩

/-- C8: `Clear` removes all entries and resets the counter to its initial
zero state: the cleared mapper IS the zero mapper, `Get` of any key on it
fails with the unknown-handle error, and the next `MapValue` behaves (same
key, same result) exactly like the first `MapValue` on a fresh mapper. -/
theorem C8_clear_resets {α : Type} (w : Nat) (mapper : Mapper α) (h : Key) (v : α) :
    mapper.Clear = (G : Mapper α) ∧
    (mapper.Clear).Get h = .error (.keyNotMapped h.v) ∧
    (mapper.Clear).MapValue w v = (G : Mapper α).MapValue w v := by
  refine ⟨rfl, ?_, rfl⟩
  rw [Get_eq_error_iff]
  rfl

/-- C9: `DeletePtr` on a pointer with the low bit set panics with the
unaligned-pointer error instead of deleting — even when an entry for that
exact bit pattern (a synthetic key) exists — whereas `DeleteHandle` performs
no alignment check: it is exactly `Delete` of the raw bit pattern, and it
really deletes a synthetic-keyed entry. -/
theorem C9_deletePtr_alignment {α : Type} (mapper : Mapper α) (p handle : Nat)
    (v : α) (hp : p &&& 1 ≠ 0) :
    (mapper.MapPair ⟨p⟩ v).DeletePtr p = .error (.misalignedPtr p) ∧
    mapper.DeletePtr p = .error (.misalignedPtr p) ∧
    mapper.DeleteHandle handle = mapper.Delete ⟨handle⟩ ∧
    ((mapper.MapPair ⟨p⟩ v).DeleteHandle p).Get ⟨p⟩ = .error (.keyNotMapped p) := by
  have hp2 : p % 2 = 1 := by
    rw [Nat.and_one_is_mod] at hp
    omega
  refine ⟨?_, ?_, rfl, ?_⟩
  · unfold Mapper.DeletePtr KeyFromPtr countingPointerBit
    simp [hp2]
  · unfold Mapper.DeletePtr KeyFromPtr countingPointerBit
    simp [hp2]
  · exact (Get_eq_error_iff _ ⟨p⟩).mpr
      (by rw [show ((mapper.MapPair ⟨p⟩ v).DeleteHandle p) = (mapper.MapPair ⟨p⟩ v).Delete ⟨p⟩ from rfl,
        entries_Delete, mapLookup_mapErase_self])

/-- Witness for C9 at the odd pointer 1 (with a synthetic entry for bit
pattern 1 present) and handle 3. -/
theorem C9_witness :
    ((G : Mapper Nat).MapPair ⟨1⟩ 0).DeletePtr 1 = .error (.misalignedPtr 1) ∧
    (G : Mapper Nat).DeleteHandle 3 = (G : Mapper Nat).Delete ⟨3⟩ ∧
    (((G : Mapper Nat).MapPair ⟨1⟩ 0).DeleteHandle 1).Get ⟨1⟩ = .error (.keyNotMapped 1) :=
  ⟨(C9_deletePtr_alignment G 1 3 0 (by decide)).1,
    (C9_deletePtr_alignment G 1 3 0 (by decide)).2.2.1,
    (C9_deletePtr_alignment G 1 3 0 (by decide)).2.2.2⟩

/-- C10: every operation is well-defined on the zero-valued mapper `G`
(nil internal map): `Get` of any key fails with the unknown-handle error,
`Delete` and `Clear` are no-ops, `Clear` resets the map back to nil, and
the map is lazily allocated on the first insert. -/
theorem C10_zero_value_safe {α : Type} (mapper : Mapper α) (h k : Key) (v : α) :
    (G : Mapper α).m = none ∧
    (G : Mapper α).Get h = .error (.keyNotMapped h.v) ∧
    (G : Mapper α).Delete h = G ∧
    (G : Mapper α).Clear = G ∧
    (mapper.Clear).m = none ∧
    (mapper.Clear).Get h = .error (.keyNotMapped h.v) ∧
    ((G : Mapper α).MapPair k v).m = some [(k, v)] := by
  refine ⟨rfl, ?_, rfl, rfl, rfl, ?_, rfl⟩
  · rw [Get_eq_error_iff]
    rfl
  · rw [Get_eq_error_iff]
    rfl
